import Mathlib

/-
Shallow embedding of the Pacverse room server (src/src/rooms/PacverseRoom.ts).

The room's replicated state holds two keyed collections (networked entities and
networked users, both Colyseus `MapSchema`s keyed by strings) plus the
room-level `clientEntities` map from a client id to the list of entity ids that
client created.  JavaScript maps with string keys are embedded as association
lists `List (String × α)`; since a JS `Map` can never hold two entries with the
same key, deletion is embedded as a filter over the key.

Dynamic JavaScript values that flow through the handlers (message payload
fields, schema fields written by the direct-field update mode) are embedded as
the inductive `JsVal`.  JS numbers are embedded as `Option ℚ` — `none` plays
the role of NaN; all numeric values exercised by the claims are small decimal
literals on which IEEE doubles are exact, so rational arithmetic agrees with
the source.  `null` and `undefined` are merged into `JsVal.vUndefined`: both are
`== null`, both are falsy, and both make a `.toString()` method call throw,
which is all the source ever does with them.

A handler that would throw a `TypeError` mid-loop is embedded as returning the
partially mutated state paired with a `true` "faulted" flag, matching the fact
that in-place mutations performed before the throw survive it.
-/

/-- Dynamic JavaScript value as used by the room's message handlers.  Arrays
only occur in `createEntity` payloads and are modelled separately (`JsArg`). -/
inductive JsVal where
  | vStr (s : String)
  | vNum (q : Option ℚ)
  | vBool (b : Bool)
  | vUndefined
deriving DecidableEq

/-- Value of a key in a `createEntity` payload: a scalar or a flat array
(`creationPos` / `creationRot` carry arrays of numbers or numeric strings). -/
inductive JsArg where
  | scalar (v : JsVal)
  | arr (l : List JsVal)
deriving DecidableEq

/-- JavaScript truthiness: empty string, NaN, 0, false, undefined and null are
falsy. -/
def truthy : JsVal → Bool
  | .vStr s => !s.isEmpty
  | .vNum none => false
  | .vNum (some q) => decide (q ≠ 0)
  | .vBool b => b
  | .vUndefined => false

/-- Numeric value of a digit string (used by the `parseFloat` embedding). -/
def digitsVal (cs : List Char) : ℕ :=
  cs.foldl (fun a c => 10 * a + (c.toNat - 48)) 0

/-- Embedding of JavaScript `parseFloat` on the decimal literals the room
protocol uses: optional leading whitespace, optional sign, decimal digits with
an optional fractional part; parsing stops at the first unusable character and
yields NaN (`none`) when no digit was consumed.  Exponent notation and
`Infinity` are not modelled — no claim exercises them. -/
def parseFloat (s : String) : Option ℚ :=
  let cs := s.toList.dropWhile Char.isWhitespace
  let sgn : ℚ := match cs with
    | '-' :: _ => -1
    | _ => 1
  let cs1 : List Char := match cs with
    | '-' :: r => r
    | '+' :: r => r
    | _ => cs
  let ipart := cs1.takeWhile Char.isDigit
  let rest := cs1.dropWhile Char.isDigit
  let fpart : List Char := match rest with
    | '.' :: r => r.takeWhile Char.isDigit
    | _ => []
  if ipart.isEmpty && fpart.isEmpty then none
  else some (sgn * ((digitsVal ipart : ℚ) + (digitsVal fpart : ℚ) / (10 : ℚ) ^ fpart.length))

/-- Zero-pads a digit string on the left to the given length. -/
def padZeros (s : String) (len : Nat) : String :=
  if s.length < len then String.mk (List.replicate (len - s.length) '0') ++ s else s

/-- Embedding of JavaScript `Number.prototype.toString` for the rationals the
room protocol produces.  Integers print exactly as in JS; finite decimal
fractions (denominator dividing a power of ten, as produced by `parseFloat`
and addition) print with the minimal number of fractional digits.  Other
rationals cannot arise from the modelled operations; they fall back to the
`ℚ` representation. -/
def qToStr (q : ℚ) : String :=
  if q.den = 1 then toString q.num
  else
    match (List.range 40).find? (fun k => decide (10 ^ (k + 1) % q.den = 0)) with
    | some k =>
      let e := k + 1
      let scaled := q.num.natAbs * (10 ^ e / q.den)
      let ip := scaled / 10 ^ e
      let fp := scaled % 10 ^ e
      (if q.num < 0 then "-" else "") ++ toString ip ++ "." ++ padZeros (toString fp) e
    | none => toString q

/-- String rendering of a JS number; NaN renders as `"NaN"`. -/
def numToStr : Option ℚ → String
  | none => "NaN"
  | some q => qToStr q

/-- String coercion of a JS value (as performed by template literals and by
`.toString()` on defined values). -/
def jsToStr : JsVal → String
  | .vStr s => s
  | .vNum q => numToStr q
  | .vBool b => if b then "true" else "false"
  | .vUndefined => "undefined"

/-- Result of calling `.toString()` on a possibly-undefined value: calling a
method on `undefined`/`null` throws (`none`); otherwise the coercion string. -/
def toStrMethod : Option JsVal → Option String
  | none => none
  | some .vUndefined => none
  | some v => some (jsToStr v)

/-- Embedding of `parseFloat` applied to a dynamic value: numbers pass through
unchanged (string round-trip of a JS number is exact), strings are parsed,
everything else coerces to an unparsable word and yields NaN. -/
def parseFloatJ : JsVal → Option ℚ
  | .vNum q => q
  | .vStr s => parseFloat s
  | .vBool _ => none
  | .vUndefined => none

/-- Strict equality (`===`) on the scalar values the room compares: NaN is
equal to nothing, values of distinct types are unequal. -/
def jsStrictEq : JsVal → JsVal → Bool
  | .vNum none, _ => false
  | _, .vNum none => false
  | .vStr a, .vStr b => decide (a = b)
  | .vNum (some p), .vNum (some q) => decide (p = q)
  | .vBool a, .vBool b => a == b
  | .vUndefined, .vUndefined => true
  | _, _ => false

/-- Loose `== null` test on an optional message field: an absent field, an
explicit `null` and `undefined` all pass it. -/
def isNullish : Option JsVal → Bool
  | none => true
  | some .vUndefined => true
  | some _ => false

/-- Truthiness of an optional message field (absent is falsy). -/
def truthyOpt : Option JsVal → Bool
  | none => false
  | some v => truthy v

/-- Tests whether an optional token is a given string literal (the source's
`data[1] === "attributes"` and `updateValue === "inc"` comparisons). -/
def isLitTok (o : Option JsVal) (s : String) : Bool :=
  match o with
  | some (.vStr t) => decide (t = s)
  | _ => false

/-- Indexing a payload value: arrays index positionally, strings index into
their characters (as JS does), anything else yields `undefined`. -/
def jsIndex (a : JsArg) (i : Nat) : JsVal :=
  match a with
  | .arr l => (l.get? i).getD .vUndefined
  | .scalar (.vStr s) =>
    match s.toList.get? i with
    | some c => .vStr (String.mk [c])
    | none => .vUndefined
  | .scalar _ => .vUndefined

/-- Result of `.toString()` on a payload value: a flat array joins its elements
with commas (`undefined`/`null` elements print empty, as in JS); a scalar
behaves like `toStrMethod`. -/
def argToStrMethod : JsArg → Option String
  | .scalar v => toStrMethod (some v)
  | .arr l => some (String.intercalate "," (l.map (fun v =>
      match v with
      | .vUndefined => ""
      | w => jsToStr w)))

/-- Lookup in a string-keyed JS map (first matching entry). -/
def getKV {α : Type} : List (String × α) → String → Option α
  | [], _ => none
  | (k1, v) :: rest, k => if k1 = k then some v else getKV rest k

/-- `Map.set`: replaces the value at an existing key in place, otherwise
appends a fresh entry. -/
def setKV {α : Type} : List (String × α) → String → α → List (String × α)
  | [], k, v => [(k, v)]
  | (k1, v1) :: rest, k, v =>
    if k1 = k then (k, v) :: rest else (k1, v1) :: setKV rest k v

/-- `Map.delete`: removes the entry with the given key.  A JS map holds at most
one entry per key, so removal is modelled as a filter. -/
def delKV {α : Type} (m : List (String × α)) (k : String) : List (String × α) :=
  m.filter (fun p => decide (p.1 ≠ k))

/-- `Map.has`. -/
def hasKV {α : Type} (m : List (String × α)) (k : String) : Bool :=
  (getKV m k).isSome

/-- Modelled from the spec: the `ColyseusNetworkedEntity` schema class lives in
`src/rooms/schema/ColyseusRoomState.ts`, which is not under `src/`.  Per the
spec's data model an entity carries an id, its creator's connection identity
(`ownerId`), an optional `creationId`, numeric position/rotation fields, a
server-time `timestamp`, and a string attribute map.  Because the direct-field
update mode (`(stateToUpdate as any)[property] = updateValue`) can write any
property of the underlying JS object, the declared fields are embedded as one
JS property table `fields`; the `attributes` `MapSchema` is kept separate
since the source addresses it through `.attributes`. -/
structure NetworkedEntity where
  fields : List (String × JsVal)
  attributes : List (String × JsVal)
deriving DecidableEq

/-- Property write on an entity (`entity[prop] = v` / declared-field
assignment). -/
def NetworkedEntity.setField (e : NetworkedEntity) (prop : String) (v : JsVal) : NetworkedEntity :=
  { e with fields := setKV e.fields prop v }

/-- Modelled from the spec: the `ColyseusNetworkedUser` schema class is also
part of the schema file missing from `src/`; per the spec a user carries
connection and session identity, an `account`, opaque profile fields, a
`connected` flag, a `timestamp`, and a string attribute map.  As for entities,
the declared fields are embedded as one JS property table. -/
structure NetworkedUser where
  fields : List (String × JsVal)
  attributes : List (String × JsVal)
deriving DecidableEq

/-- Property write on a user record. -/
def NetworkedUser.setField (u : NetworkedUser) (prop : String) (v : JsVal) : NetworkedUser :=
  { u with fields := setKV u.fields prop v }

/-- Connected client handle: Colyseus gives each connection an `id` and a
`sessionId`.  The source keys `clientEntities` by `client.id` and
`networkedUsers` by `client.sessionId`. -/
structure Client where
  id : String
  sessionId : String
deriving DecidableEq

/-- Room state as the handlers see it: the two replicated collections of the
`ColyseusRoomState` schema, the room-level ownership index `clientEntities`,
the accumulated `serverTime`, and whether `customMethodController` is
non-null (a custom logic module was loaded at room creation). -/
structure RoomState where
  networkedEntities : List (String × NetworkedEntity)
  networkedUsers : List (String × NetworkedUser)
  clientEntities : List (String × List String)
  serverTime : ℚ
  hasCustomLogic : Bool
deriving DecidableEq

/-- Room state right after `onCreate` ran with no custom logic module. -/
def initialRoomState : RoomState :=
  { networkedEntities := []
    networkedUsers := []
    clientEntities := []
    serverTime := 0
    hasCustomLogic := false }

/-- Loop body of `onEntityUpdate`: consumes `(property, value)` token pairs
from position `i` on, handling the `inc` opcode (which reads the current
attribute value, sums it with the following token and advances the cursor one
extra position).  In attribute mode a missing value token makes
`undefined.toString()` throw: the recursion stops and reports the fault,
keeping the mutations already applied.  The fuel is `data.length`; since the
cursor advances by at least two per iteration while the loop only runs at
positions below `data.length`, the fuel never runs out. -/
def applyPairs : Nat → Bool → List JsVal → NetworkedEntity → Nat → NetworkedEntity × Bool
  | 0, _, _, e, _ => (e, false)
  | fuel + 1, attrMode, data, e, i =>
    if i < data.length then
      let property := jsToStr ((data.get? i).getD .vUndefined)
      let updateValue := data.get? (i + 1)
      let step : Option JsVal × Nat :=
        if isLitTok updateValue "inc" then
          (some (.vNum (Option.bind (parseFloatJ ((getKV e.attributes property).getD .vUndefined))
              (fun a => Option.map (fun b => a + b)
                (parseFloatJ ((data.get? (i + 2)).getD .vUndefined))))), i + 3)
        else (updateValue, i + 2)
      if attrMode then
        match toStrMethod step.1 with
        | none => (e, true)
        | some str =>
          applyPairs fuel attrMode data
            { e with attributes := setKV e.attributes property (.vStr str) } step.2
      else
        applyPairs fuel attrMode data (e.setField property (step.1.getD .vUndefined)) step.2
    else (e, false)

/-- `onEntityUpdate`: looks the target entity up under the string coercion of
the first token, selects attribute mode when the second token is the literal
`"attributes"`, applies the token pairs, and stamps the entity's `timestamp`
with the current server time (`parseFloat(serverTime.toString())` round-trips
to `serverTime`).  The returned flag reports whether the handler threw; on a
throw the timestamp line is never reached but the mutations already applied to
the entity remain. -/
def onEntityUpdate (s : RoomState) (clientID : String) (data : List JsVal) : RoomState × Bool :=
  let key := jsToStr ((data.get? 0).getD .vUndefined)
  match getKV s.networkedEntities key with
  | none => (s, false)
  | some e =>
    let attrMode := isLitTok (data.get? 1) "attributes"
    let startIndex := if attrMode then 2 else 1
    let res := applyPairs data.length attrMode data e startIndex
    let e2 := if res.2 then res.1 else res.1.setField "timestamp" (.vNum (some s.serverTime))
    ({ s with networkedEntities := setKV s.networkedEntities key e2 }, res.2)

/-- Payload of a `setAttribute` message; `none` fields cover both an absent key
and an explicit `null`/`undefined`. -/
structure AttributeUpdateMessage where
  entityId : Option JsVal
  userId : Option JsVal
  attributesToSet : Option (List (String × JsVal))
deriving DecidableEq

/-- Writes every key of `attributesToSet` into an attribute map, in object-key
order, values stored raw. -/
def setAttrPairs (m : List (String × JsVal)) (kvs : List (String × JsVal)) : List (String × JsVal) :=
  kvs.foldl (fun acc kv => setKV acc kv.1 kv.2) m

/-- `setAttribute`: rejects a message whose `entityId` and `userId` are both
`== null` or whose `attributesToSet` is `== null`; otherwise a truthy
`entityId` selects the entity branch and, failing that, a truthy `userId`
selects the user branch.  Each branch requires the target to exist, stamps its
`timestamp` with the current server time and then copies the supplied
key/value pairs into its attribute map. -/
def setAttribute (s : RoomState) (client : Client) (msg : AttributeUpdateMessage) : RoomState :=
  if (isNullish msg.entityId && isNullish msg.userId) || msg.attributesToSet.isNone then s
  else if truthyOpt msg.entityId then
    let key := jsToStr (msg.entityId.getD .vUndefined)
    match getKV s.networkedEntities key with
    | none => s
    | some e =>
      let e1 := e.setField "timestamp" (.vNum (some s.serverTime))
      let e2 := { e1 with attributes := setAttrPairs e1.attributes (msg.attributesToSet.getD []) }
      { s with networkedEntities := setKV s.networkedEntities key e2 }
  else if truthyOpt msg.userId then
    let key := jsToStr (msg.userId.getD .vUndefined)
    match getKV s.networkedUsers key with
    | none => s
    | some u =>
      let u1 := u.setField "timestamp" (.vNum (some s.serverTime))
      let u2 := { u1 with attributes := setAttrPairs u1.attributes (msg.attributesToSet.getD []) }
      { s with networkedUsers := setKV s.networkedUsers key u2 }
  else s

/-- Join options: the profile fields `onJoin` copies into the new user record.
Absent fields are `vUndefined`. -/
structure JoinOptions where
  account : JsVal
  userName : JsVal
  headMat : JsVal
  headColor : JsVal
  hairMat : JsVal
  hairColor : JsVal
  clothMat : JsVal
  clothColor : JsVal
  shoeMat : JsVal
  shoeColor : JsVal
  glassMat : JsVal
  glassColor : JsVal
  maskMat : JsVal
  maskColor : JsVal
deriving DecidableEq

/-- The user record `onJoin` constructs via `assign`.  Modelled from the spec:
the schema class (missing from `src/`) defaults `connected` to `true` for a
newly admitted user ("constructs a new User with `connected=true`"). -/
def mkNetworkedUser (c : Client) (o : JoinOptions) : NetworkedUser :=
  { fields :=
      [("id", .vStr c.id), ("sessionId", .vStr c.sessionId), ("account", o.account),
       ("userName", o.userName), ("headMat", o.headMat), ("headColor", o.headColor),
       ("hairMat", o.hairMat), ("hairColor", o.hairColor), ("clothMat", o.clothMat),
       ("clothColor", o.clothColor), ("shoeMat", o.shoeMat), ("shoeColor", o.shoeColor),
       ("glassMat", o.glassMat), ("glassColor", o.glassColor), ("maskMat", o.maskMat),
       ("maskColor", o.maskColor), ("connected", .vBool true)]
    attributes := [] }

/-- The `account` field of a user record, as read by the duplicate scan. -/
def userAccount (u : NetworkedUser) : JsVal :=
  (getKV u.fields "account").getD .vUndefined

/-- Outcome of a join request: either the "WalletNotPass" rejection notice was
sent back with no further processing, or the new user record was stored and
sent back in the "onJoin" reply. -/
inductive JoinResult where
  | rejected
  | admitted (u : NetworkedUser)
deriving DecidableEq

/-- `onJoin`: builds the user record from the client's profile options, scans
the current users for one whose `account` is strictly equal to the new
record's `account` and rejects in that case; otherwise stores the record
keyed by `sessionId`. -/
def onJoin (s : RoomState) (c : Client) (o : JoinOptions) : RoomState × JoinResult :=
  let newUser := mkNetworkedUser c o
  if s.networkedUsers.any (fun p => jsStrictEq (userAccount p.2) (userAccount newUser)) then
    (s, .rejected)
  else
    ({ s with networkedUsers := setKV s.networkedUsers c.sessionId newUser }, .admitted newUser)

/-- Number of current user records whose `account` is strictly equal to the
given value. -/
def countAccount (s : RoomState) (a : JsVal) : ℕ :=
  (s.networkedUsers.filter (fun p => jsStrictEq (userAccount p.2) a)).length

/-- Payload of a `createEntity` message. -/
structure CreationMessage where
  creationId : Option JsVal
  attributes : List (String × JsArg)
deriving DecidableEq

/-- One iteration of the `createEntity` payload loop: `creationPos` and
`creationRot` parse their components into position/rotation fields, any other
key is stringified into the attribute map (`none` = the `.toString()` call
threw on a `null`/`undefined` value). -/
def applyCreationKey (e : NetworkedEntity) (key : String) (v : JsArg) : Option NetworkedEntity :=
  if key = "creationPos" then
    some (((e.setField "xPos" (.vNum (parseFloatJ (jsIndex v 0)))).setField
      "yPos" (.vNum (parseFloatJ (jsIndex v 1)))).setField
      "zPos" (.vNum (parseFloatJ (jsIndex v 2))))
  else if key = "creationRot" then
    some ((((e.setField "xRot" (.vNum (parseFloatJ (jsIndex v 0)))).setField
      "yRot" (.vNum (parseFloatJ (jsIndex v 1)))).setField
      "zRot" (.vNum (parseFloatJ (jsIndex v 2)))).setField
      "wRot" (.vNum (parseFloatJ (jsIndex v 3))))
  else
    match argToStrMethod v with
    | none => none
    | some str => some { e with attributes := setKV e.attributes key (.vStr str) }

/-- The entity `createEntity` assigns before the payload loop: its fresh id
(`entityViewID` stands for the `generateId()` result, assumed
collision-resistant), the requesting client's id as `ownerId`, the optional
`creationId` when not `== null`, and the current server time as `timestamp`
(`parseFloat(serverTime.toString())` round-trips to `serverTime`). -/
def createBaseEntity (s : RoomState) (client : Client) (msg : CreationMessage)
    (entityViewID : String) : NetworkedEntity :=
  let e0 : NetworkedEntity :=
    { fields := [("id", .vStr entityViewID), ("ownerId", .vStr client.id),
                 ("timestamp", .vNum (some s.serverTime))]
      attributes := [] }
  let e1 := if isNullish msg.creationId then e0
            else e0.setField "creationId" (msg.creationId.getD .vUndefined)
  e1.setField "timestamp" (.vNum (some s.serverTime))

/-- The `createEntity` payload loop: folds every payload key into the entity,
aborting (`none`) when a `.toString()` call throws. -/
def createPayloadFold (msg : CreationMessage) (e : NetworkedEntity) : Option NetworkedEntity :=
  msg.attributes.foldl (fun acc kv => acc.bind (fun x => applyCreationKey x kv.1 kv.2)) (some e)

/-- The `createEntity` handler: builds the base entity, folds the payload keys
in, and on success stores the entity and appends its id to the client's
`clientEntities` list.  A throw while stringifying a payload value (`true`
flag) aborts before anything is stored. -/
def createEntity (s : RoomState) (client : Client) (msg : CreationMessage)
    (entityViewID : String) : RoomState × Bool :=
  match createPayloadFold msg (createBaseEntity s client msg entityViewID) with
  | none => (s, true)
  | some e3 =>
    let ce := match getKV s.clientEntities client.id with
      | some lst => setKV s.clientEntities client.id (lst ++ [entityViewID])
      | none => setKV s.clientEntities client.id [entityViewID]
    ({ s with networkedEntities := setKV s.networkedEntities entityViewID e3
              clientEntities := ce }, false)

/-- The `removeEntity` handler: deletes the entity if present.  It does not
touch `clientEntities`. -/
def removeEntity (s : RoomState) (removeId : String) : RoomState :=
  if hasKV s.networkedEntities removeId then
    { s with networkedEntities := delKV s.networkedEntities removeId }
  else s

/-- The reconnection grace period passed to `allowReconnection`. -/
def reconnectionGraceSeconds : ℚ := 10

/-- First step of `onLeave`: if a user record exists for the session, set its
`connected` flag to `false`. -/
def markConnectedFalse (s : RoomState) (c : Client) : RoomState :=
  match getKV s.networkedUsers c.sessionId with
  | some u =>
    let u1 := u.setField "connected" (.vBool false)
    { s with networkedUsers := setKV s.networkedUsers c.sessionId u1 }
  | none => s

/-- The catch-block of `onLeave`: delete the user record; if `clientEntities`
has an entry for the client id, delete every entity listed there, delete the
entry itself, and invoke `ProcessUserLeft` when a custom logic module is
loaded; with no entry only a diagnostic is logged (and the hook is not
invoked).  The returned flag reports whether `ProcessUserLeft` was invoked. -/
def purge (s : RoomState) (c : Client) : RoomState × Bool :=
  let s1 := { s with networkedUsers := delKV s.networkedUsers c.sessionId }
  match getKV s1.clientEntities c.id with
  | some allClientEntities =>
    ({ s1 with
        networkedEntities := allClientEntities.foldl (fun m eid => delKV m eid) s1.networkedEntities
        clientEntities := delKV s1.clientEntities c.id }, s1.hasCustomLogic)
  | none => (s1, false)

/-- `onLeave`: marks the user disconnected, then either waits for a
reconnection or purges.  `signalArrival` abstracts `allowReconnection`: a
matching reconnection signal arriving `t` seconds after the disconnect, or
`none` when no signal ever arrives.  A consented leave throws immediately into
the purge; a non-consented leave purges exactly when no signal arrives before
the grace period expires.  The returned flag reports whether the
`ProcessUserLeft` hook was invoked. -/
def onLeave (s : RoomState) (c : Client) (consented : Bool) (signalArrival : Option ℚ) :
    RoomState × Bool :=
  let s1 := markConnectedFalse s c
  let reconnected := !consented &&
    (match signalArrival with
     | some t => decide (t < reconnectionGraceSeconds)
     | none => false)
  if reconnected then (s1, false) else purge s1 c

/-- The `ownerId` property of an entity. -/
def entityOwner (e : NetworkedEntity) : Option JsVal :=
  getKV e.fields "ownerId"

/-- Whether an owner property matches a client id string. -/
def ownerMatches : Option JsVal → String → Bool
  | some (.vStr t), c => decide (t = c)
  | _, _ => false

/-- Whether the entity collection holds `eid` with `ownerId` equal to `c`. -/
def entOwnedBy (ents : List (String × NetworkedEntity)) (eid c : String) : Bool :=
  match getKV ents eid with
  | some e => ownerMatches (entityOwner e) c
  | none => false

/-- The Ownership Index invariant claimed by the spec: every entity id listed
in `clientEntities` exists in the entity collection with a matching
`ownerId`. -/
def indexConsistentB (s : RoomState) : Bool :=
  s.clientEntities.all (fun p => p.2.all (fun eid => entOwnedBy s.networkedEntities eid p.1))

/-- No token of an update coerces to the property name `ownerId` (direct-field
mode can otherwise rewrite an entity's owner). -/
def noOwnerToken (data : List JsVal) : Prop :=
  ∀ v ∈ data, jsToStr v ≠ "ownerId"

/-! Generic facts about the association-list embedding of JS maps. -/

theorem getKV_cons {α : Type} (p : String × α) (rest : List (String × α)) (k : String) :
    getKV (p :: rest) k = if p.1 = k then some p.2 else getKV rest k := by
  cases p
  rfl

theorem getKV_setKV_self {α : Type} (m : List (String × α)) (k : String) (v : α) :
    getKV (setKV m k v) k = some v := by
  induction m with
  | nil => simp [setKV, getKV]
  | cons p rest ih =>
    by_cases h : p.1 = k
    · simp [setKV, h, getKV]
    · simp only [setKV]
      rw [if_neg h]
      simp [getKV, h, ih]

theorem getKV_setKV_ne {α : Type} (m : List (String × α)) (k k1 : String) (v : α)
    (h : k1 ≠ k) : getKV (setKV m k v) k1 = getKV m k1 := by
  have hk : ¬k = k1 := fun hk => h hk.symm
  induction m with
  | nil => simp [setKV, getKV, hk]
  | cons p rest ih =>
    by_cases hp : p.1 = k
    · simp only [setKV]
      rw [if_pos hp, getKV, getKV, if_neg hk, if_neg]
      rw [hp]
      exact hk
    · simp only [setKV]
      rw [if_neg hp]
      simp [getKV, ih]

theorem getKV_delKV_self {α : Type} (m : List (String × α)) (k : String) :
    getKV (delKV m k) k = none := by
  induction m with
  | nil => simp [delKV, getKV]
  | cons p rest ih =>
    by_cases h : p.1 = k
    · simpa [delKV, h] using ih
    · simpa [delKV, h, getKV] using ih

theorem getKV_delKV_ne {α : Type} (m : List (String × α)) (k k1 : String) (h : k1 ≠ k) :
    getKV (delKV m k) k1 = getKV m k1 := by
  induction m with
  | nil => simp [delKV]
  | cons p rest ih =>
    rw [delKV, List.filter_cons]
    rw [delKV] at ih
    by_cases hp : p.1 = k
    · rw [decide_eq_false (not_not_intro hp)]
      simp only [Bool.false_eq_true, if_false]
      rw [ih, getKV_cons, if_neg]
      rw [hp]
      exact fun hk => h hk.symm
    · rw [decide_eq_true (show p.1 ≠ k from hp)]
      simp only [if_true]
      rw [getKV_cons, getKV_cons]
      by_cases hk1 : p.1 = k1
      · rw [if_pos hk1, if_pos hk1]
      · rw [if_neg hk1, if_neg hk1, ih]

theorem getKV_mem {α : Type} (m : List (String × α)) (k : String) (v : α)
    (h : getKV m k = some v) : (k, v) ∈ m := by
  induction m with
  | nil => simp [getKV] at h
  | cons p rest ih =>
    rw [getKV] at h
    by_cases hp : p.1 = k
    · rw [if_pos hp] at h
      have hv : p.2 = v := by injection h
      have : p = (k, v) := by
        cases p
        simp only at hp hv
        rw [hp, hv]
      rw [← this]
      exact List.mem_cons_self _ _
    · rw [if_neg hp] at h
      exact List.mem_cons_of_mem _ (ih h)

theorem mem_setKV {α : Type} (m : List (String × α)) (k : String) (v : α) (p : String × α)
    (h : p ∈ setKV m k v) : p = (k, v) ∨ p ∈ m := by
  induction m with
  | nil => simpa [setKV] using h
  | cons q rest ih =>
    rw [setKV] at h
    by_cases hq : q.1 = k
    · rw [if_pos hq] at h
      rcases List.mem_cons.mp h with h1 | h1
      · exact Or.inl h1
      · exact Or.inr (List.mem_cons_of_mem _ h1)
    · rw [if_neg hq] at h
      rcases List.mem_cons.mp h with h1 | h1
      · exact Or.inr (h1 ▸ List.mem_cons_self _ _)
      · rcases ih h1 with h2 | h2
        · exact Or.inl h2
        · exact Or.inr (List.mem_cons_of_mem _ h2)

theorem mem_delKV {α : Type} (m : List (String × α)) (k : String) (p : String × α)
    (h : p ∈ delKV m k) : p ∈ m ∧ p.1 ≠ k := by
  rw [delKV] at h
  have h1 := List.mem_filter.mp h
  exact ⟨h1.1, by simpa using h1.2⟩

theorem getKV_foldDel_none {α : Type} (ids : List String) (m : List (String × α)) (x : String)
    (hm : getKV m x = none) : getKV (ids.foldl (fun acc e => delKV acc e) m) x = none := by
  induction ids generalizing m with
  | nil => simpa using hm
  | cons j rj ih =>
    rw [List.foldl_cons]
    by_cases hj : x = j
    · exact ih _ (hj ▸ getKV_delKV_self m x)
    · exact ih _ (by rw [getKV_delKV_ne _ _ _ hj]; exact hm)

theorem getKV_foldDel_of_mem {α : Type} (ids : List String) (m : List (String × α)) (x : String)
    (hx : x ∈ ids) : getKV (ids.foldl (fun acc e => delKV acc e) m) x = none := by
  induction ids generalizing m with
  | nil => simp at hx
  | cons i rest ih =>
    rw [List.foldl_cons]
    by_cases h : x ∈ rest
    · exact ih _ h
    · have hxi : x = i := by
        rcases List.mem_cons.mp hx with h1 | h1
        · exact h1
        · exact absurd h1 h
      exact getKV_foldDel_none _ _ _ (hxi ▸ getKV_delKV_self m x)

theorem getKV_foldDel_of_not_mem {α : Type} (ids : List String) (m : List (String × α))
    (x : String) (hx : x ∉ ids) :
    getKV (ids.foldl (fun acc e => delKV acc e) m) x = getKV m x := by
  induction ids generalizing m with
  | nil => simp
  | cons i rest ih =>
    rw [List.foldl_cons]
    have hxi : x ≠ i := fun h => hx (h ▸ List.mem_cons_self _ _)
    rw [ih _ (fun h => hx (List.mem_cons_of_mem _ h)), getKV_delKV_ne _ _ _ hxi]

/-! Small facts about the handler building blocks. -/

theorem truthyOpt_of_nullish (o : Option JsVal) (h : isNullish o = true) :
    truthyOpt o = false := by
  match o with
  | none => rfl
  | some .vUndefined => rfl
  | some (.vStr s) => simp [isNullish] at h
  | some (.vNum q) => simp [isNullish] at h
  | some (.vBool b) => simp [isNullish] at h

theorem isNullish_some_of_ne (v : JsVal) (h : v ≠ .vUndefined) : isNullish (some v) = false := by
  match v with
  | .vStr s => rfl
  | .vNum q => rfl
  | .vBool b => rfl
  | .vUndefined => exact absurd rfl h

theorem truthy_ne_vUndefined (v : JsVal) (h : truthy v = true) : v ≠ .vUndefined := by
  intro hv
  rw [hv] at h
  simp [truthy] at h

theorem markConnectedFalse_clientEntities (s : RoomState) (c : Client) :
    (markConnectedFalse s c).clientEntities = s.clientEntities := by
  rw [markConnectedFalse]
  cases getKV s.networkedUsers c.sessionId <;> rfl

theorem markConnectedFalse_networkedEntities (s : RoomState) (c : Client) :
    (markConnectedFalse s c).networkedEntities = s.networkedEntities := by
  rw [markConnectedFalse]
  cases getKV s.networkedUsers c.sessionId <;> rfl

theorem markConnectedFalse_hasCustomLogic (s : RoomState) (c : Client) :
    (markConnectedFalse s c).hasCustomLogic = s.hasCustomLogic := by
  rw [markConnectedFalse]
  cases getKV s.networkedUsers c.sessionId <;> rfl

theorem purge_networkedUsers (s : RoomState) (c : Client) :
    (purge s c).1.networkedUsers = delKV s.networkedUsers c.sessionId := by
  rw [purge]
  cases getKV s.clientEntities c.id <;> rfl

theorem purge_hook (s : RoomState) (c : Client) :
    (purge s c).2 = (s.hasCustomLogic && hasKV s.clientEntities c.id) := by
  rw [purge]
  cases h : getKV s.clientEntities c.id <;> simp [hasKV, h]

theorem onLeave_consented (s : RoomState) (c : Client) (sig : Option ℚ) :
    onLeave s c true sig = purge (markConnectedFalse s c) c := rfl

theorem onLeave_expired (s : RoomState) (c : Client) (sig : Option ℚ)
    (h : ∀ t, sig = some t → reconnectionGraceSeconds ≤ t) :
    onLeave s c false sig = purge (markConnectedFalse s c) c := by
  rw [onLeave.eq_def]
  cases sig with
  | none => rfl
  | some t =>
    have : decide (t < reconnectionGraceSeconds) = false :=
      decide_eq_false (not_lt.mpr (h t rfl))
    simp only [this, Bool.not_false, Bool.true_and]
    rfl

/-- Room state used to witness claim C6: one entity owned by `clientA`. -/
def entC6 : NetworkedEntity :=
  { fields := [("id", .vStr "ent1"), ("ownerId", .vStr "clientA"), ("timestamp", .vNum (some 0))]
    attributes := [] }

/-- Concrete room state with a single entity, used by claim C6. -/
def stateC6 : RoomState :=
  { networkedEntities := [("ent1", entC6)]
    networkedUsers := []
    clientEntities := [("clientA", ["ent1"])]
    serverTime := 0
    hasCustomLogic := false }

/-- C6: the claim says a malformed command — in particular an `entityUpdate`
token array naming an existing entity but carrying an odd number of tokens
after the mode marker — is dropped without faulting.  On the code this fails:
with `["ent1", "attributes", "score"]` the value token `data[3]` is
`undefined`, and `undefined.toString()` throws a `TypeError` inside the loop.
The embedded handler reports the fault (second component `true`); no state
change happens before the throw. -/
theorem C6_odd_tokens_fault :
    (onEntityUpdate stateC6 "clientA" [.vStr "ent1", .vStr "attributes", .vStr "score"]).2 = true
    ∧ (onEntityUpdate stateC6 "clientA" [.vStr "ent1", .vStr "attributes", .vStr "score"]).1
        = stateC6 :=
  ⟨rfl, rfl⟩

/-- C8: a consented leave purges immediately — the outcome does not depend on
any reconnection signal (no waiting), the user record is deleted, and every
entity id listed under the client in the Ownership Index is deleted. -/
theorem C8_consented_immediate_purge (s : RoomState) (c : Client) (sig : Option ℚ) :
    onLeave s c true sig = onLeave s c true none
    ∧ getKV (onLeave s c true sig).1.networkedUsers c.sessionId = none
    ∧ ∀ ids, getKV s.clientEntities c.id = some ids →
        ∀ eid ∈ ids, getKV (onLeave s c true sig).1.networkedEntities eid = none := by
  refine ⟨rfl, ?_, ?_⟩
  · rw [onLeave_consented, purge_networkedUsers, getKV_delKV_self]
  · intro ids hids eid heid
    rw [onLeave_consented, purge]
    rw [markConnectedFalse_clientEntities] at *
    rw [hids]
    exact getKV_foldDel_of_mem _ _ _ heid

/-- User record used by the C8 witness. -/
def userC8 : NetworkedUser :=
  { fields := [("id", .vStr "clientB"), ("sessionId", .vStr "sessB"), ("connected", .vBool true)]
    attributes := [] }

/-- Entity owned by `clientB` used by the C8 witness. -/
def entC8 : NetworkedEntity :=
  { fields := [("id", .vStr "entB"), ("ownerId", .vStr "clientB"), ("timestamp", .vNum (some 0))]
    attributes := [] }

/-- Concrete room state used by the C8 witness. -/
def stateC8 : RoomState :=
  { networkedEntities := [("entB", entC8)]
    networkedUsers := [("sessB", userC8)]
    clientEntities := [("clientB", ["entB"])]
    serverTime := 0
    hasCustomLogic := false }

/-- Witness for C8 at a concrete state: consented leave with a pending
reconnection signal still deletes the user record and the owned entity. -/
theorem C8_consented_immediate_purge_witness :
    getKV (onLeave stateC8 ⟨"clientB", "sessB"⟩ true (some 3)).1.networkedUsers "sessB" = none
    ∧ getKV (onLeave stateC8 ⟨"clientB", "sessB"⟩ true (some 3)).1.networkedEntities "entB"
        = none :=
  ⟨(C8_consented_immediate_purge stateC8 ⟨"clientB", "sessB"⟩ (some 3)).2.1,
   (C8_consented_immediate_purge stateC8 ⟨"clientB", "sessB"⟩ (some 3)).2.2
     ["entB"] rfl "entB" (by simp)⟩

/-- User record used by claim C3. -/
def userC3 : NetworkedUser :=
  { fields := [("id", .vStr "cC3"), ("sessionId", .vStr "sessC3"), ("connected", .vBool true)]
    attributes := [] }

/-- Concrete room state for claim C3: a custom logic module is loaded, a user
is present, but the Ownership Index has no entry for the user's client id. -/
def stateC3 : RoomState :=
  { networkedEntities := []
    networkedUsers := [("sessC3", userC3)]
    clientEntities := []
    serverTime := 0
    hasCustomLogic := true }

/-- C3 counterexample: the claim says the post-departure hook is invoked after
every cleanup purge, *including* when the Ownership Index has no entry for that
connection identity.  On the code the `ProcessUserLeft` call sits inside the
`clientEntities.has(client.id)` branch: purging `cC3` (custom logic loaded, no
index entry) removes the user record but does not invoke the hook. -/
theorem C3_counterexample :
    (onLeave stateC3 ⟨"cC3", "sessC3"⟩ true none).2 = false
    ∧ getKV (onLeave stateC3 ⟨"cC3", "sessC3"⟩ true none).1.networkedUsers "sessC3" = none :=
  ⟨rfl, rfl⟩

/-- C3 (amended): for every purge of a departed connection (consented leave,
or no reconnection signal before the grace period expires), the user record is
removed, and the post-departure hook `ProcessUserLeft` is invoked exactly when
a custom logic module is loaded *and* the Ownership Index has an entry for the
connection identity; with no index entry the entity purge is skipped with a
diagnostic, the user record is still removed, but the hook is not invoked. -/
theorem C3_amended (s : RoomState) (c : Client) (consented : Bool) (sig : Option ℚ)
    (hPurge : consented = true ∨ ∀ t, sig = some t → reconnectionGraceSeconds ≤ t) :
    (onLeave s c consented sig).2 = (s.hasCustomLogic && hasKV s.clientEntities c.id)
    ∧ getKV (onLeave s c consented sig).1.networkedUsers c.sessionId = none := by
  have hrun : onLeave s c consented sig = purge (markConnectedFalse s c) c := by
    rcases hPurge with h | h
    · rw [h, onLeave_consented]
    · cases consented with
      | true => rw [onLeave_consented]
      | false => exact onLeave_expired s c sig h
  refine ⟨?_, ?_⟩
  · rw [hrun, purge_hook, markConnectedFalse_hasCustomLogic, markConnectedFalse_clientEntities]
  · rw [hrun, purge_networkedUsers, getKV_delKV_self]

/-- Concrete room state for the C3 witness: custom logic loaded and an (empty)
Ownership Index entry for the client, so the hook fires on purge. -/
def stateC3w : RoomState :=
  { networkedEntities := []
    networkedUsers := [("sessC3w", { fields := [("connected", .vBool true)], attributes := [] })]
    clientEntities := [("cC3w", [])]
    serverTime := 0
    hasCustomLogic := true }

/-- Witness for C3 (amended) at a concrete purge. -/
theorem C3_amended_witness :
    (onLeave stateC3w ⟨"cC3w", "sessC3w"⟩ true none).2
      = (stateC3w.hasCustomLogic && hasKV stateC3w.clientEntities "cC3w")
    ∧ getKV (onLeave stateC3w ⟨"cC3w", "sessC3w"⟩ true none).1.networkedUsers "sessC3w" = none :=
  C3_amended stateC3w ⟨"cC3w", "sessC3w"⟩ true none (Or.inl rfl)

/-- User record used by claim C1. -/
def userC1 : NetworkedUser :=
  { fields := [("id", .vStr "cC1"), ("sessionId", .vStr "sessC1"), ("account", .vStr "W1"),
               ("connected", .vBool true)]
    attributes := [] }

/-- Entity owned by `cC1`, used by claim C1. -/
def entC1 : NetworkedEntity :=
  { fields := [("id", .vStr "eC1"), ("ownerId", .vStr "cC1"), ("timestamp", .vNum (some 0))]
    attributes := [] }

/-- Concrete room state for claim C1: one connected user owning one entity,
listed in the Ownership Index. -/
def stateC1 : RoomState :=
  { networkedEntities := [("eC1", entC1)]
    networkedUsers := [("sessC1", userC1)]
    clientEntities := [("cC1", ["eC1"])]
    serverTime := 0
    hasCustomLogic := false }

/-- C1: evaluation of `onLeave` at the failing input.  A non-consented leave
with a matching reconnection signal at t = 5 (inside the 10-unit grace window)
keeps the user record, all owned entities and the index entry — but the record
is left with `connected = false`: the handler never runs the
`connected = true` restoration the claim (and spec) describe.  The expiry
branch (no signal) behaves as claimed: the user record, the owned entity and
the Ownership Index entry are all removed. -/
theorem C1_reconnect_no_connected_restore :
    (getKV (onLeave stateC1 ⟨"cC1", "sessC1"⟩ false (some 5)).1.networkedUsers "sessC1").map
        (fun u => getKV u.fields "connected") = some (some (.vBool false))
    ∧ (onLeave stateC1 ⟨"cC1", "sessC1"⟩ false (some 5)).1.networkedEntities
        = stateC1.networkedEntities
    ∧ (onLeave stateC1 ⟨"cC1", "sessC1"⟩ false (some 5)).1.clientEntities
        = stateC1.clientEntities
    ∧ getKV (onLeave stateC1 ⟨"cC1", "sessC1"⟩ false none).1.networkedUsers "sessC1" = none
    ∧ getKV (onLeave stateC1 ⟨"cC1", "sessC1"⟩ false none).1.networkedEntities "eC1" = none
    ∧ getKV (onLeave stateC1 ⟨"cC1", "sessC1"⟩ false none).1.clientEntities "cC1" = none :=
  ⟨rfl, rfl, rfl, rfl, rfl, rfl⟩

theorem setAttribute_entities_of_not_truthy (s : RoomState) (client : Client)
    (msg : AttributeUpdateMessage) (h : truthyOpt msg.entityId = false) :
    (setAttribute s client msg).networkedEntities = s.networkedEntities := by
  rw [setAttribute]
  by_cases hg : (isNullish msg.entityId && isNullish msg.userId) || msg.attributesToSet.isNone
  · rw [if_pos hg]
  · rw [if_neg hg, h]
    simp only [Bool.false_eq_true, if_false]
    by_cases hu : truthyOpt msg.userId
    · rw [if_pos hu]
      cases getKV s.networkedUsers (jsToStr (msg.userId.getD .vUndefined)) <;> rfl
    · rw [if_neg hu]

theorem isNullish_none : isNullish none = true := rfl

theorem truthyOpt_none : truthyOpt none = false := rfl

theorem setAttribute_guard_true (s : RoomState) (client : Client) (msg : AttributeUpdateMessage)
    (h : ((isNullish msg.entityId && isNullish msg.userId) || msg.attributesToSet.isNone)
        = true) : setAttribute s client msg = s := by
  rw [setAttribute, if_pos h]

theorem setAttribute_noop (s : RoomState) (client : Client) (msg : AttributeUpdateMessage)
    (he : truthyOpt msg.entityId = false) (hu : truthyOpt msg.userId = false) :
    setAttribute s client msg = s := by
  rw [setAttribute, he, hu]
  simp only [Bool.false_eq_true, if_false, ite_self]

theorem setAttribute_congr_user (s : RoomState) (client : Client)
    (m1 m2 : AttributeUpdateMessage)
    (hu : m1.userId = m2.userId) (ha : m1.attributesToSet = m2.attributesToSet)
    (ht1 : truthyOpt m1.entityId = false) (ht2 : truthyOpt m2.entityId = false)
    (hg : ((isNullish m1.entityId && isNullish m1.userId) || m1.attributesToSet.isNone)
        = ((isNullish m2.entityId && isNullish m2.userId) || m2.attributesToSet.isNone)) :
    setAttribute s client m1 = setAttribute s client m2 := by
  rw [hu, ha] at hg
  rw [setAttribute, setAttribute, ht1, ht2, hu, ha, hg]
  simp only [Bool.false_eq_true, if_false]

theorem setAttribute_congr_entity (s : RoomState) (client : Client)
    (m1 m2 : AttributeUpdateMessage)
    (he : m1.entityId = m2.entityId) (ha : m1.attributesToSet = m2.attributesToSet)
    (ht : truthyOpt m1.entityId = true)
    (hg : ((isNullish m1.entityId && isNullish m1.userId) || m1.attributesToSet.isNone)
        = ((isNullish m2.entityId && isNullish m2.userId) || m2.attributesToSet.isNone)) :
    setAttribute s client m1 = setAttribute s client m2 := by
  rw [he] at ht
  rw [he, ha] at hg
  rw [setAttribute, setAttribute, he, ha, hg]
  by_cases hgg : ((isNullish m2.entityId && isNullish m2.userId) || m2.attributesToSet.isNone)
      = true
  · rw [if_pos hgg, if_pos hgg]
  · rw [if_neg hgg, if_neg hgg, if_pos ht, if_pos ht]

/-- C10: a `setAttribute` message whose `entityId` field is present but falsy
(empty string, numeric zero, NaN, `false`) never takes the entity branch: the
handler behaves exactly as if `entityId` were absent — falling through to the
`userId` branch when `userId` is present, and changing no state otherwise —
and in particular the entity collection is untouched even if an entity keyed
by the coercion of that falsy id exists. -/
theorem C10_falsy_entityId (s : RoomState) (client : Client) (msg : AttributeUpdateMessage)
    (v : JsVal) (h1 : msg.entityId = some v) (h2 : truthy v = false) :
    setAttribute s client msg = setAttribute s client { msg with entityId := none }
    ∧ (setAttribute s client msg).networkedEntities = s.networkedEntities := by
  have hto : truthyOpt msg.entityId = false := by rw [h1]; exact h2
  refine ⟨?_, setAttribute_entities_of_not_truthy s client msg hto⟩
  by_cases hn : isNullish msg.entityId = true
  · exact setAttribute_congr_user s client msg _ rfl rfl hto truthyOpt_none
      (by rw [hn]; rfl)
  · have hn' : isNullish msg.entityId = false := by
      cases h : isNullish msg.entityId
      · rfl
      · exact absurd h hn
    by_cases hu : isNullish msg.userId = true
    · rw [setAttribute_noop s client msg hto (truthyOpt_of_nullish _ hu)]
      rw [setAttribute_guard_true s client _ (by rw [show ({ msg with entityId := none }
          : AttributeUpdateMessage).userId = msg.userId from rfl]; rw [hu]; rfl)]
    · have hu' : isNullish msg.userId = false := by
        cases h : isNullish msg.userId
        · rfl
        · exact absurd h hu
      exact setAttribute_congr_user s client msg _ rfl rfl hto truthyOpt_none
        (by rw [hn', hu']; rfl)

/-- Entity keyed by the empty string, used by the C10 witness. -/
def entC10 : NetworkedEntity :=
  { fields := [("id", .vStr ""), ("ownerId", .vStr "cC10"), ("timestamp", .vNum (some 0))]
    attributes := [] }

/-- User record used by the C10 witness. -/
def userC10 : NetworkedUser :=
  { fields := [("id", .vStr "cC10"), ("sessionId", .vStr "sessC10"), ("connected", .vBool true)]
    attributes := [] }

/-- Concrete room state for the C10 witness: an entity keyed by the empty
string exists. -/
def stateC10 : RoomState :=
  { networkedEntities := [("", entC10)]
    networkedUsers := [("sessC10", userC10)]
    clientEntities := [("cC10", [""])]
    serverTime := 0
    hasCustomLogic := false }

/-- Message with a present-but-falsy `entityId` (empty string) and a valid
`userId`, used by the C10 witness. -/
def msgC10 : AttributeUpdateMessage :=
  { entityId := some (.vStr "")
    userId := some (.vStr "sessC10")
    attributesToSet := some [("mood", .vStr "happy")] }

/-- Witness for C10 at a concrete message: the falsy `entityId` is treated as
absent and the entity keyed `""` is untouched. -/
theorem C10_falsy_entityId_witness :
    setAttribute stateC10 ⟨"cC10", "sessC10"⟩ msgC10
      = setAttribute stateC10 ⟨"cC10", "sessC10"⟩ { msgC10 with entityId := none }
    ∧ (setAttribute stateC10 ⟨"cC10", "sessC10"⟩ msgC10).networkedEntities
      = stateC10.networkedEntities :=
  C10_falsy_entityId stateC10 ⟨"cC10", "sessC10"⟩ msgC10 (.vStr "") rfl rfl

/-- Entity used by claim C5. -/
def entC5 : NetworkedEntity :=
  { fields := [("id", .vStr "eC5"), ("ownerId", .vStr "cC5"), ("timestamp", .vNum (some 0))]
    attributes := [] }

/-- Concrete room state for claim C5. -/
def stateC5 : RoomState :=
  { networkedEntities := [("eC5", entC5)]
    networkedUsers := []
    clientEntities := [("cC5", ["eC5"])]
    serverTime := 0
    hasCustomLogic := false }

/-- Message carrying BOTH `entityId` and `userId`, used by claim C5. -/
def msgC5 : AttributeUpdateMessage :=
  { entityId := some (.vStr "eC5")
    userId := some (.vStr "uC5")
    attributesToSet := some [("color", .vStr "red")] }

/-- C5 counterexample: the claim says a `setAttribute` message in which both
`entityId` and `userId` are present is ignored with no state change.  On the
code a message carrying both targets is processed by the entity branch: here
it writes the `color` attribute of entity `eC5`, so the state changes. -/
theorem C5_counterexample : setAttribute stateC5 ⟨"cC5", "sessC5"⟩ msgC5 ≠ stateC5 := by
  intro h
  have hb := congrArg (fun st =>
    (match getKV st.networkedEntities "eC5" with
     | some e => hasKV e.attributes "color"
     | none => false)) h
  exact absurd hb (by decide)

/-- C5 (amended): a `setAttribute` message with neither `entityId` nor
`userId` present (`== null`) is ignored with no state change; a message
carrying both targets is however not ignored — `entityId` takes precedence:
when it is truthy the message is handled exactly as if `userId` were
absent. -/
theorem C5_amended (s : RoomState) (client : Client) (msg : AttributeUpdateMessage) :
    (isNullish msg.entityId = true → isNullish msg.userId = true →
      setAttribute s client msg = s)
    ∧ (∀ ev, msg.entityId = some ev → truthy ev = true →
      setAttribute s client msg = setAttribute s client { msg with userId := none }) := by
  constructor
  · intro h1 h2
    exact setAttribute_guard_true s client msg (by rw [h1, h2]; rfl)
  · intro ev hev htv
    have hne : isNullish msg.entityId = false := by
      rw [hev]
      exact isNullish_some_of_ne ev (truthy_ne_vUndefined ev htv)
    refine setAttribute_congr_entity s client msg _ rfl rfl ?_ ?_
    · rw [hev]
      exact htv
    · rw [hne]
      rfl

/-- Message with neither target present, used by the C5 witness. -/
def msgC5none : AttributeUpdateMessage :=
  { entityId := none
    userId := none
    attributesToSet := some [("color", .vStr "red")] }

/-- Witness for C5 (amended) at concrete messages. -/
theorem C5_amended_witness :
    setAttribute stateC5 ⟨"cC5", "sessC5"⟩ msgC5none = stateC5
    ∧ setAttribute stateC5 ⟨"cC5", "sessC5"⟩ msgC5
      = setAttribute stateC5 ⟨"cC5", "sessC5"⟩ { msgC5 with userId := none } :=
  ⟨(C5_amended stateC5 ⟨"cC5", "sessC5"⟩ msgC5none).1 rfl rfl,
   (C5_amended stateC5 ⟨"cC5", "sessC5"⟩ msgC5).2 (.vStr "eC5") rfl rfl⟩

theorem userAccount_mk (c : Client) (o : JoinOptions) :
    userAccount (mkNetworkedUser c o) = o.account := rfl

/-- C9: two join requests whose profiles both omit the `account` field
collide: if an admitted user's `account` is `undefined` and a new join's
`account` is also `undefined`, the duplicate scan compares
`undefined === undefined` (true) and the join is rejected with the
"WalletNotPass" notice, leaving the state unchanged (the first user remains
admitted). -/
theorem C9_undefined_accounts_collide (s : RoomState) (c : Client) (o : JoinOptions)
    (k : String) (u : NetworkedUser)
    (hu : getKV s.networkedUsers k = some u)
    (hacc : userAccount u = .vUndefined)
    (hoa : o.account = .vUndefined) :
    onJoin s c o = (s, .rejected) := by
  have hany : s.networkedUsers.any
      (fun p => jsStrictEq (userAccount p.2) (userAccount (mkNetworkedUser c o))) = true := by
    apply List.any_eq_true.mpr
    refine ⟨(k, u), getKV_mem _ _ _ hu, ?_⟩
    rw [userAccount_mk, hoa]
    show jsStrictEq (userAccount u) .vUndefined = true
    rw [hacc]
    rfl
  simp only [onJoin]
  rw [hany]
  simp

/-- Join options with a given `account` and every profile slot absent. -/
def optsOfAccount (a : JsVal) : JoinOptions :=
  { account := a
    userName := .vUndefined
    headMat := .vUndefined
    headColor := .vUndefined
    hairMat := .vUndefined
    hairColor := .vUndefined
    clothMat := .vUndefined
    clothColor := .vUndefined
    shoeMat := .vUndefined
    shoeColor := .vUndefined
    glassMat := .vUndefined
    glassColor := .vUndefined
    maskMat := .vUndefined
    maskColor := .vUndefined }

/-- Account-less admitted user, used by the C9 witness. -/
def userC9 : NetworkedUser :=
  { fields := [("id", .vStr "cC9"), ("sessionId", .vStr "sC9"), ("account", .vUndefined),
               ("connected", .vBool true)]
    attributes := [] }

/-- Concrete room state for the C9 witness. -/
def stateC9 : RoomState :=
  { networkedEntities := []
    networkedUsers := [("sC9", userC9)]
    clientEntities := []
    serverTime := 0
    hasCustomLogic := false }

/-- Witness for C9: a second account-less join is rejected while the first
account-less user stays admitted. -/
theorem C9_undefined_accounts_collide_witness :
    onJoin stateC9 ⟨"cC9b", "sC9b"⟩ (optsOfAccount .vUndefined) = (stateC9, .rejected) :=
  C9_undefined_accounts_collide stateC9 ⟨"cC9b", "sC9b"⟩ (optsOfAccount .vUndefined)
    "sC9" userC9 rfl rfl rfl

/-- C7: account de-duplication on join.  If exactly one admitted user carries
the requested `account` value, the join is rejected (the "WalletNotPass"
notice is sent), no user record is added or modified, and afterwards exactly
one admitted user record still carries that account value.  If no admitted
user carries it, a new user record with `connected = true` is stored keyed by
the requester's `sessionId` (all other state untouched) and returned in the
"onJoin" reply. -/
theorem C7_account_dedup (s : RoomState) (c : Client) (o : JoinOptions) :
    (countAccount s o.account = 1 →
      onJoin s c o = (s, .rejected) ∧ countAccount (onJoin s c o).1 o.account = 1)
    ∧ (countAccount s o.account = 0 →
      (onJoin s c o).1.networkedUsers = setKV s.networkedUsers c.sessionId (mkNetworkedUser c o)
        ∧ (onJoin s c o).1.networkedEntities = s.networkedEntities
        ∧ (onJoin s c o).1.clientEntities = s.clientEntities
        ∧ (onJoin s c o).2 = .admitted (mkNetworkedUser c o)
        ∧ getKV (mkNetworkedUser c o).fields "connected" = some (.vBool true)) := by
  constructor
  · intro h1
    have hrej : onJoin s c o = (s, .rejected) := by
      have hany : s.networkedUsers.any
          (fun p => jsStrictEq (userAccount p.2) (userAccount (mkNetworkedUser c o)))
          = true := by
        rw [userAccount_mk]
        apply List.any_eq_true.mpr
        obtain ⟨q, qs, hf⟩ : ∃ q qs, s.networkedUsers.filter
            (fun p => jsStrictEq (userAccount p.2) o.account) = q :: qs := by
          cases hf : s.networkedUsers.filter
              (fun p => jsStrictEq (userAccount p.2) o.account) with
          | nil =>
            rw [countAccount, hf] at h1
            simp at h1
          | cons q qs => exact ⟨q, qs, rfl⟩
        have hqmem : q ∈ s.networkedUsers.filter
            (fun p => jsStrictEq (userAccount p.2) o.account) := by
          rw [hf]
          exact List.mem_cons_self _ _
        have hq := List.mem_filter.mp hqmem
        exact ⟨q, hq.1, hq.2⟩
      simp only [onJoin]
      rw [hany]
      simp
    refine ⟨hrej, ?_⟩
    rw [hrej]
    exact h1
  · intro h0
    have hany : s.networkedUsers.any
        (fun p => jsStrictEq (userAccount p.2) (userAccount (mkNetworkedUser c o)))
        = false := by
      rw [userAccount_mk]
      cases hb : s.networkedUsers.any (fun p => jsStrictEq (userAccount p.2) o.account) with
      | false => rfl
      | true =>
        exfalso
        obtain ⟨q, hmem, hpq⟩ := List.any_eq_true.mp hb
        have hqf : q ∈ s.networkedUsers.filter
            (fun p => jsStrictEq (userAccount p.2) o.account) :=
          List.mem_filter.mpr ⟨hmem, hpq⟩
        rw [countAccount, List.length_eq_zero] at h0
        rw [h0] at hqf
        simp at hqf
    have hrun : onJoin s c o
        = ({ s with networkedUsers := setKV s.networkedUsers c.sessionId (mkNetworkedUser c o) },
          .admitted (mkNetworkedUser c o)) := by
      simp only [onJoin]
      rw [hany]
      simp
    rw [hrun]
    exact ⟨rfl, rfl, rfl, rfl, rfl⟩

/-- User with account `"A"`, used by the C7 witness. -/
def userC7 : NetworkedUser :=
  { fields := [("id", .vStr "cA"), ("sessionId", .vStr "sA"), ("account", .vStr "A"),
               ("connected", .vBool true)]
    attributes := [] }

/-- Concrete room state for the C7 witness: one admitted user with account
`"A"`. -/
def stateC7 : RoomState :=
  { networkedEntities := []
    networkedUsers := [("sA", userC7)]
    clientEntities := []
    serverTime := 0
    hasCustomLogic := false }

/-- Witness for C7: joining with the duplicate account `"A"` is rejected and
leaves exactly one record with that account; joining with the fresh account
`"B"` stores and returns a connected user record. -/
theorem C7_account_dedup_witness :
    (onJoin stateC7 ⟨"cB", "sB"⟩ (optsOfAccount (.vStr "A")) = (stateC7, .rejected)
      ∧ countAccount (onJoin stateC7 ⟨"cB", "sB"⟩ (optsOfAccount (.vStr "A"))).1
          (.vStr "A") = 1)
    ∧ (onJoin stateC7 ⟨"cB", "sB"⟩ (optsOfAccount (.vStr "B"))).2
        = .admitted (mkNetworkedUser ⟨"cB", "sB"⟩ (optsOfAccount (.vStr "B"))) :=
  ⟨(C7_account_dedup stateC7 ⟨"cB", "sB"⟩ (optsOfAccount (.vStr "A"))).1 (by decide),
   ((C7_account_dedup stateC7 ⟨"cB", "sB"⟩ (optsOfAccount (.vStr "B"))).2
     (by decide)).2.2.2.1⟩

/-! Preservation machinery for the Ownership Index invariant (claim C2). -/

theorem entityOwner_setField_ne (e : NetworkedEntity) (prop : String) (v : JsVal)
    (h : prop ≠ "ownerId") : entityOwner (e.setField prop v) = entityOwner e := by
  rw [entityOwner, entityOwner, NetworkedEntity.setField]
  exact getKV_setKV_ne _ _ _ _ (fun hh => h hh.symm)

theorem entOwnedBy_iff (ents : List (String × NetworkedEntity)) (eid c : String) :
    entOwnedBy ents eid c = true ↔
      ∃ e, getKV ents eid = some e ∧ ownerMatches (entityOwner e) c = true := by
  cases h : getKV ents eid with
  | none => simp [entOwnedBy, h]
  | some e => simp [entOwnedBy, h]

theorem ownerMatches_inj (o : Option JsVal) (a b : String)
    (ha : ownerMatches o a = true) (hb : ownerMatches o b = true) : a = b := by
  match o with
  | some (.vStr t) =>
    simp only [ownerMatches, decide_eq_true_eq] at ha hb
    rw [← ha, ← hb]
  | some (.vNum q) => simp [ownerMatches] at ha
  | some (.vBool x) => simp [ownerMatches] at ha
  | some .vUndefined => simp [ownerMatches] at ha
  | none => simp [ownerMatches] at ha

theorem indexConsistentB_iff (s : RoomState) :
    indexConsistentB s = true ↔
      ∀ p ∈ s.clientEntities, ∀ eid ∈ p.2, entOwnedBy s.networkedEntities eid p.1 = true := by
  rw [indexConsistentB]
  simp [List.all_eq_true]

theorem applyPairs_owner (fuel : Nat) (attrMode : Bool) (data : List JsVal)
    (e : NetworkedEntity) (i : Nat)
    (h : ∀ v ∈ data, jsToStr v ≠ "ownerId") :
    entityOwner (applyPairs fuel attrMode data e i).1 = entityOwner e := by
  induction fuel generalizing e i with
  | zero => rfl
  | succ fuel ih =>
    rw [applyPairs]
    by_cases hi : i < data.length
    · rw [if_pos hi]
      have hprop : jsToStr ((data.get? i).getD .vUndefined) ≠ "ownerId" := by
        cases hg : data.get? i with
        | none => simp [jsToStr]
        | some v =>
          have hv : v ∈ data := List.get?_mem hg
          simpa [hg] using h v hv
      simp only []
      cases hm : attrMode with
      | true =>
        rw [hm] at ih
        simp only [if_true]
        cases hts : toStrMethod (if isLitTok (data.get? (i + 1)) "inc" = true then
            (some (.vNum ((parseFloatJ ((getKV e.attributes
                (jsToStr ((data.get? i).getD .vUndefined))).getD .vUndefined)).bind
              (fun a => Option.map (fun b => a + b)
                (parseFloatJ ((data.get? (i + 2)).getD .vUndefined))))), i + 3)
          else (data.get? (i + 1), i + 2)).1 with
        | none => rfl
        | some str =>
          simp only []
          exact ih _ _
      | false =>
        rw [hm] at ih
        simp only [Bool.false_eq_true, if_false]
        rw [ih _ _]
        exact entityOwner_setField_ne _ _ _ hprop
    · rw [if_neg hi]

theorem createBaseEntity_owner (s : RoomState) (client : Client) (msg : CreationMessage)
    (eid : String) :
    entityOwner (createBaseEntity s client msg eid) = some (.vStr client.id) := by
  rw [createBaseEntity]
  rw [entityOwner_setField_ne _ _ _ (by decide)]
  by_cases h : isNullish msg.creationId = true
  · rw [if_pos h]
    rfl
  · rw [if_neg h]
    rw [entityOwner_setField_ne _ _ _ (by decide)]
    rfl

theorem applyCreationKey_owner (e e1 : NetworkedEntity) (key : String) (v : JsArg)
    (h : applyCreationKey e key v = some e1) : entityOwner e1 = entityOwner e := by
  rw [applyCreationKey] at h
  by_cases h1 : key = "creationPos"
  · rw [if_pos h1] at h
    injection h with h
    rw [← h, entityOwner_setField_ne _ _ _ (by decide),
      entityOwner_setField_ne _ _ _ (by decide), entityOwner_setField_ne _ _ _ (by decide)]
  · rw [if_neg h1] at h
    by_cases h2 : key = "creationRot"
    · rw [if_pos h2] at h
      injection h with h
      rw [← h, entityOwner_setField_ne _ _ _ (by decide),
        entityOwner_setField_ne _ _ _ (by decide), entityOwner_setField_ne _ _ _ (by decide),
        entityOwner_setField_ne _ _ _ (by decide)]
    · rw [if_neg h2] at h
      cases hts : argToStrMethod v with
      | none =>
        rw [hts] at h
        simp at h
      | some str =>
        rw [hts] at h
        injection h with h
        rw [← h]
        rfl

theorem foldCreation_none (kvs : List (String × JsArg)) :
    kvs.foldl (fun acc kv => acc.bind (fun x => applyCreationKey x kv.1 kv.2)) none = none := by
  induction kvs with
  | nil => rfl
  | cons kv rest ih =>
    rw [List.foldl_cons]
    simpa using ih

theorem createPayloadFold_owner (msg : CreationMessage) (e e3 : NetworkedEntity)
    (h : createPayloadFold msg e = some e3) : entityOwner e3 = entityOwner e := by
  rw [createPayloadFold] at h
  generalize msg.attributes = kvs at h
  induction kvs generalizing e with
  | nil =>
    simp at h
    rw [h]
  | cons kv rest ih =>
    rw [List.foldl_cons] at h
    have hb : (some e).bind (fun x => applyCreationKey x kv.1 kv.2)
        = applyCreationKey e kv.1 kv.2 := rfl
    rw [hb] at h
    cases hstep : applyCreationKey e kv.1 kv.2 with
    | none =>
      rw [hstep, foldCreation_none] at h
      exact absurd h (by simp)
    | some e1 =>
      rw [hstep] at h
      rw [ih e1 h]
      exact applyCreationKey_owner _ _ _ _ hstep

theorem index_update_entity (s : RoomState) (key : String) (eOld eNew : NetworkedEntity)
    (hInv : indexConsistentB s = true)
    (hk : getKV s.networkedEntities key = some eOld)
    (hown : entityOwner eNew = entityOwner eOld) :
    ∀ p ∈ s.clientEntities, ∀ x ∈ p.2,
      entOwnedBy (setKV s.networkedEntities key eNew) x p.1 = true := by
  intro p hp x hx
  have hold := (indexConsistentB_iff s).mp hInv p hp x hx
  rw [entOwnedBy_iff] at hold ⊢
  obtain ⟨e, he, ho⟩ := hold
  by_cases hxk : x = key
  · refine ⟨eNew, by rw [hxk, getKV_setKV_self], ?_⟩
    rw [hown]
    rw [hxk, hk] at he
    injection he with he
    rw [he]
    exact ho
  · exact ⟨e, by rw [getKV_setKV_ne _ _ _ _ hxk]; exact he, ho⟩

theorem index_insert_entity (s : RoomState) (client : Client) (eid : String)
    (e3 : NetworkedEntity) (L : List String)
    (hInv : indexConsistentB s = true)
    (hFresh : getKV s.networkedEntities eid = none)
    (howner : entityOwner e3 = some (.vStr client.id))
    (hL : ∀ x ∈ L, x = eid ∨ entOwnedBy s.networkedEntities x client.id = true) :
    ∀ p ∈ setKV s.clientEntities client.id L, ∀ x ∈ p.2,
      entOwnedBy (setKV s.networkedEntities eid e3) x p.1 = true := by
  intro p hp x hx
  have preserve : ∀ c1 x1, x1 ≠ eid → entOwnedBy s.networkedEntities x1 c1 = true →
      entOwnedBy (setKV s.networkedEntities eid e3) x1 c1 = true := by
    intro c1 x1 hne hold
    rw [entOwnedBy_iff] at hold ⊢
    obtain ⟨e, he, ho⟩ := hold
    exact ⟨e, by rw [getKV_setKV_ne _ _ _ _ hne]; exact he, ho⟩
  have ne_of_owned : ∀ c1 x1, entOwnedBy s.networkedEntities x1 c1 = true → x1 ≠ eid := by
    intro c1 x1 hold hxx
    rw [entOwnedBy_iff] at hold
    obtain ⟨e, he, _⟩ := hold
    rw [hxx, hFresh] at he
    exact absurd he (by simp)
  rcases mem_setKV _ _ _ _ hp with hpe | hpm
  · rw [hpe] at hx ⊢
    rcases hL x hx with hxe | hxo
    · rw [hxe]
      rw [entOwnedBy_iff]
      refine ⟨e3, getKV_setKV_self _ _ _, ?_⟩
      rw [howner, ownerMatches]
      simp
    · exact preserve _ _ (ne_of_owned _ _ hxo) hxo
  · have hold := (indexConsistentB_iff s).mp hInv p hpm x hx
    exact preserve _ _ (ne_of_owned _ _ hold) hold

theorem createEntity_preserves_index (s : RoomState) (client : Client) (msg : CreationMessage)
    (eid : String) (hInv : indexConsistentB s = true)
    (hFresh : getKV s.networkedEntities eid = none) :
    indexConsistentB (createEntity s client msg eid).1 = true := by
  rw [createEntity]
  cases hfold : createPayloadFold msg (createBaseEntity s client msg eid) with
  | none => exact hInv
  | some e3 =>
    have howner : entityOwner e3 = some (.vStr client.id) := by
      rw [createPayloadFold_owner msg _ _ hfold, createBaseEntity_owner]
    simp only []
    cases hce : getKV s.clientEntities client.id with
    | some lst =>
      rw [indexConsistentB_iff]
      intro p hp x hx
      refine index_insert_entity s client eid e3 (lst ++ [eid]) hInv hFresh howner ?_ p ?_ x hx
      · intro y hy
        rcases List.mem_append.mp hy with hyl | hye
        · exact Or.inr ((indexConsistentB_iff s).mp hInv (client.id, lst)
            (getKV_mem _ _ _ hce) y hyl)
        · exact Or.inl (by simpa using hye)
      · exact hp
    | none =>
      rw [indexConsistentB_iff]
      intro p hp x hx
      refine index_insert_entity s client eid e3 [eid] hInv hFresh howner ?_ p ?_ x hx
      · intro y hy
        exact Or.inl (by simpa using hy)
      · exact hp

theorem onEntityUpdate_preserves_index (s : RoomState) (cid : String) (data : List JsVal)
    (hInv : indexConsistentB s = true) (hTok : noOwnerToken data) :
    indexConsistentB (onEntityUpdate s cid data).1 = true := by
  rw [onEntityUpdate]
  cases hk : getKV s.networkedEntities (jsToStr ((data.get? 0).getD .vUndefined)) with
  | none => exact hInv
  | some e =>
    have hgen : ∀ (r : NetworkedEntity × Bool),
        entityOwner (if r.2 then r.1 else r.1.setField "timestamp" (.vNum (some s.serverTime)))
          = entityOwner r.1 := by
      intro r
      by_cases hr2 : r.2 = true
      · rw [if_pos hr2]
      · rw [if_neg hr2]
        exact entityOwner_setField_ne _ _ _ (by decide)
    simp only []
    rw [indexConsistentB_iff]
    intro p hp x hx
    refine index_update_entity s _ e _ hInv hk ?_ p hp x hx
    rw [hgen _]
    exact applyPairs_owner _ _ _ _ _ hTok

theorem setAttribute_preserves_index (s : RoomState) (client : Client)
    (msg : AttributeUpdateMessage) (hInv : indexConsistentB s = true) :
    indexConsistentB (setAttribute s client msg) = true := by
  rw [setAttribute]
  by_cases hg : ((isNullish msg.entityId && isNullish msg.userId)
      || msg.attributesToSet.isNone) = true
  · rw [if_pos hg]
    exact hInv
  · rw [if_neg hg]
    by_cases he : truthyOpt msg.entityId = true
    · rw [if_pos he]
      simp only []
      cases hk : getKV s.networkedEntities (jsToStr (msg.entityId.getD .vUndefined)) with
      | none => exact hInv
      | some e =>
        simp only []
        rw [indexConsistentB_iff]
        intro p hp x hx
        refine index_update_entity s _ e _ hInv hk ?_ p hp x hx
        exact entityOwner_setField_ne _ _ _ (by decide)
    · rw [if_neg he]
      by_cases hu : truthyOpt msg.userId = true
      · rw [if_pos hu]
        simp only []
        cases hk : getKV s.networkedUsers (jsToStr (msg.userId.getD .vUndefined)) with
        | none => exact hInv
        | some u => exact hInv
      · rw [if_neg hu]
        exact hInv

theorem indexConsistentB_markConnectedFalse (s : RoomState) (c : Client) :
    indexConsistentB (markConnectedFalse s c) = indexConsistentB s := by
  rw [markConnectedFalse]
  cases getKV s.networkedUsers c.sessionId <;> rfl

theorem purge_preserves_index (s : RoomState) (c : Client)
    (hInv : indexConsistentB s = true) : indexConsistentB (purge s c).1 = true := by
  rw [purge]
  have hproj : ({ s with networkedUsers := delKV s.networkedUsers c.sessionId }
      : RoomState).clientEntities = s.clientEntities := rfl
  rw [hproj]
  cases hce : getKV s.clientEntities c.id with
  | none => exact hInv
  | some ids =>
    simp only []
    rw [indexConsistentB_iff]
    intro p hp x hx
    have hpd := mem_delKV _ _ _ hp
    have hold := (indexConsistentB_iff s).mp hInv p hpd.1 x hx
    have hxnotin : x ∉ ids := by
      intro hxin
      have hcown := (indexConsistentB_iff s).mp hInv (c.id, ids) (getKV_mem _ _ _ hce) x hxin
      rw [entOwnedBy_iff] at hold hcown
      obtain ⟨e1, he1, ho1⟩ := hold
      obtain ⟨e2, he2, ho2⟩ := hcown
      rw [he1] at he2
      injection he2 with he2
      rw [← he2] at ho2
      exact hpd.2 (ownerMatches_inj _ _ _ ho1 ho2)
    rw [entOwnedBy_iff] at hold ⊢
    obtain ⟨e1, he1, ho1⟩ := hold
    exact ⟨e1, by rw [getKV_foldDel_of_not_mem _ _ _ hxnotin]; exact he1, ho1⟩

theorem onLeave_preserves_index (s : RoomState) (c : Client) (consented : Bool)
    (sig : Option ℚ) (hInv : indexConsistentB s = true) :
    indexConsistentB (onLeave s c consented sig).1 = true := by
  rw [onLeave.eq_def]
  simp only []
  by_cases hr : (!consented && (match sig with
      | some t => decide (t < reconnectionGraceSeconds)
      | none => false)) = true
  · rw [if_pos hr]
    show indexConsistentB (markConnectedFalse s c) = true
    rw [indexConsistentB_markConnectedFalse]
    exact hInv
  · rw [if_neg hr]
    exact purge_preserves_index (markConnectedFalse s c) c
      (by rw [indexConsistentB_markConnectedFalse]; exact hInv)

/-- Creation payload used by claim C2 (no attributes). -/
def msgC2 : CreationMessage :=
  { creationId := none
    attributes := [] }

/-- State reached from the initial room state by one `createEntity` for client
`cC2` with fresh id `eC2`. -/
def stateC2 : RoomState :=
  (createEntity initialRoomState ⟨"cC2", "sessC2"⟩ msgC2 "eC2").1

/-- C2 counterexample: the claim says that after every operation — explicitly
including `removeEntity` — every entity id listed in the Ownership Index
exists in the entity collection with a matching `ownerId`.  Starting from the
initial state, `createEntity` establishes the invariant, but `removeEntity`
deletes the entity from the collection while leaving its id in
`clientEntities`: the index diverges. -/
theorem C2_counterexample :
    indexConsistentB stateC2 = true
    ∧ indexConsistentB (removeEntity stateC2 "eC2") = false :=
  ⟨by decide, by decide⟩

/-- C2 (amended): the Ownership Index invariant — every entity id listed in
the index exists in the entity collection with matching `ownerId` — is
preserved by `createEntity` (with a fresh generated id), by `entityUpdate`
whose tokens do not name the `ownerId` property (direct-field mode can
otherwise rewrite an entity's owner), by `setAttribute`, and by the
leave/purge path; it is NOT preserved by `removeEntity`, which deletes the
entity but leaves a stale id in the index (see the counterexample). -/
theorem C2_index_preservation (s : RoomState) (hInv : indexConsistentB s = true) :
    (∀ (client : Client) (msg : CreationMessage) (eid : String),
        getKV s.networkedEntities eid = none →
        indexConsistentB (createEntity s client msg eid).1 = true)
    ∧ (∀ (cid : String) (data : List JsVal), noOwnerToken data →
        indexConsistentB (onEntityUpdate s cid data).1 = true)
    ∧ (∀ (client : Client) (msg : AttributeUpdateMessage),
        indexConsistentB (setAttribute s client msg) = true)
    ∧ (∀ (c : Client) (consented : Bool) (sig : Option ℚ),
        indexConsistentB (onLeave s c consented sig).1 = true) :=
  ⟨fun client msg eid hf => createEntity_preserves_index s client msg eid hInv hf,
   fun cid data htok => onEntityUpdate_preserves_index s cid data hInv htok,
   fun client msg => setAttribute_preserves_index s client msg hInv,
   fun c consented sig => onLeave_preserves_index s c consented sig hInv⟩

/-- Witness for C2 (amended) at the concrete state `stateC2`. -/
theorem C2_index_preservation_witness :
    indexConsistentB (createEntity stateC2 ⟨"cC2", "sessC2"⟩ msgC2 "eC2b").1 = true
    ∧ indexConsistentB
        (onEntityUpdate stateC2 "cC2" [.vStr "eC2", .vStr "xPos", .vStr "4.5"]).1 = true
    ∧ indexConsistentB (setAttribute stateC2 ⟨"cC2", "sessC2"⟩
        { entityId := some (.vStr "eC2"), userId := none,
          attributesToSet := some [("color", .vStr "red")] }) = true
    ∧ indexConsistentB (onLeave stateC2 ⟨"cC2", "sessC2"⟩ true none).1 = true :=
  ⟨(C2_index_preservation stateC2 (by decide)).1 ⟨"cC2", "sessC2"⟩ msgC2 "eC2b" (by decide),
   (C2_index_preservation stateC2 (by decide)).2.1 "cC2"
     [.vStr "eC2", .vStr "xPos", .vStr "4.5"] (by simp [noOwnerToken, jsToStr]),
   (C2_index_preservation stateC2 (by decide)).2.2.1 ⟨"cC2", "sessC2"⟩
     { entityId := some (.vStr "eC2"), userId := none,
       attributesToSet := some [("color", .vStr "red")] },
   (C2_index_preservation stateC2 (by decide)).2.2.2 ⟨"cC2", "sessC2"⟩ true none⟩

theorem parseFloat_five : parseFloat "5" = some 5 := by
  have h : parseFloat "5"
      = some ((1 : ℚ) * (((5 : ℕ) : ℚ) + ((0 : ℕ) : ℚ) / (10 : ℚ) ^ (0 : ℕ))) := rfl
  rw [h]
  norm_num

theorem parseFloat_three : parseFloat "3" = some 3 := by
  have h : parseFloat "3"
      = some ((1 : ℚ) * (((3 : ℕ) : ℚ) + ((0 : ℕ) : ℚ) / (10 : ℚ) ^ (0 : ℕ))) := rfl
  rw [h]
  norm_num

theorem applyPairs_inc_example (e : NetworkedEntity) (eid : String)
    (h2 : getKV e.attributes "score" = some (.vStr "5")) :
    applyPairs 5 true [.vStr eid, .vStr "attributes", .vStr "score", .vStr "inc", .vStr "3"] e 2
      = ({ e with attributes := setKV e.attributes "score" (.vStr "8") }, false) := by
  simp +decide [applyPairs, isLitTok, jsToStr, List.get?, h2, parseFloatJ, parseFloat_five,
    parseFloat_three, toStrMethod, numToStr, show (5 : ℚ) + 3 = 8 from by norm_num,
    show qToStr 8 = "8" from rfl]

/-- C4: for every existing entity whose attribute `score` holds `"5"`,
applying the `entityUpdate` token sequence `[id, "attributes", "score", "inc",
"3"]` parses the current value and the amount as floats, sums them and writes
the stringified result `"8"` back; the cursor skips the consumed amount token
so no further pair is misread (nothing else changes), and the entity's
`timestamp` is set to the current accumulated server time. -/
theorem C4_inc_opcode (s : RoomState) (cid eid : String) (e : NetworkedEntity)
    (h1 : getKV s.networkedEntities eid = some e)
    (h2 : getKV e.attributes "score" = some (.vStr "5")) :
    onEntityUpdate s cid [.vStr eid, .vStr "attributes", .vStr "score", .vStr "inc", .vStr "3"]
      = ({ s with networkedEntities := (setKV s.networkedEntities eid
            (NetworkedEntity.mk (setKV e.fields "timestamp" (.vNum (some s.serverTime)))
              (setKV e.attributes "score" (.vStr "8")))) }, false) := by
  have hstep := applyPairs_inc_example e eid h2
  simp only [onEntityUpdate]
  rw [show jsToStr ((([.vStr eid, .vStr "attributes", .vStr "score", .vStr "inc", .vStr "3"]
      : List JsVal).get? 0).getD .vUndefined) = eid from rfl]
  rw [h1]
  simp only [List.length_cons, List.length_nil]
  rw [show isLitTok (([.vStr eid, .vStr "attributes", .vStr "score", .vStr "inc", .vStr "3"]
      : List JsVal).get? 1) "attributes" = true from rfl]
  simp only [if_true]
  simp only [hstep]
  rfl

/-- Entity with attribute `score = "5"`, used by the C4 witness. -/
def entC4 : NetworkedEntity :=
  { fields := [("id", .vStr "eC4"), ("ownerId", .vStr "cC4"), ("timestamp", .vNum (some 0))]
    attributes := [("score", .vStr "5")] }

/-- Concrete room state for the C4 witness, with accumulated server time 7. -/
def stateC4 : RoomState :=
  { networkedEntities := [("eC4", entC4)]
    networkedUsers := []
    clientEntities := [("cC4", ["eC4"])]
    serverTime := 7
    hasCustomLogic := false }

/-- Witness for C4 at a concrete state. -/
theorem C4_inc_opcode_witness :
    onEntityUpdate stateC4 "cC4" [.vStr "eC4", .vStr "attributes", .vStr "score",
        .vStr "inc", .vStr "3"]
      = ({ stateC4 with networkedEntities := (setKV stateC4.networkedEntities "eC4"
            (NetworkedEntity.mk (setKV entC4.fields "timestamp" (.vNum (some 7)))
              (setKV entC4.attributes "score" (.vStr "8")))) }, false) :=
  C4_inc_opcode stateC4 "cC4" "eC4" entC4 rfl rfl
